import Mathlib

/-!
Verification development for the avataaars option-resolution and animation
core. The definitions below are a shallow embedding of the source:

- OptionContext.ts: the option registry class (per-category state, current
  value map, publish/subscribe listener firing, modelled as event logs);
- Selector.tsx: candidate registration on mount and the per-render scan
  that picks the child matching the resolved value;
- index.tsx: the animation coordinator of the Avatar component (clamping
  of configured parameters, feature flags, idle scheduling, hover enter and
  leave transitions, the staged restoration chains, timer slots, and the
  unmount cleanup), modelled as an executable event-driven state machine.

Numbers are rationals; JS truthiness is modelled explicitly where the
source relies on it.
-/

namespace Avataaars

/-- JS truthiness of a nullable string: null, undefined and the empty string
are falsy. -/
def strTruthy : Option String → Bool
  | none => false
  | some s => s ≠ ""

/-- JS expression given by writing a logical or between two nullable strings:
the left operand when it is truthy, otherwise the right operand. -/
def jsOr (a b : Option String) : Option String :=
  if strTruthy a then a else b

/-- JS expression given by a logical or against a string literal fallback:
the value when truthy, otherwise the fallback literal. -/
def strGetD (a : Option String) (d : String) : String :=
  match a with
  | some s => if s = "" then d else s
  | none => d

/-! ## Association list helpers for the registry maps -/

/-- Look a key up in an association list (the embedding of a JS object used
as a map). -/
def assocGet {β : Type} : List (String × β) → String → Option β
  | [], _ => none
  | (k2, v) :: rest, k => if k2 = k then some v else assocGet rest k

/-- Write a key into an association list, overwriting an existing binding and
appending otherwise. -/
def assocSet {β : Type} : List (String × β) → String → β → List (String × β)
  | [], k, v => [(k, v)]
  | (k2, w) :: rest, k, v =>
      if k2 = k then (k2, v) :: rest else (k2, w) :: assocSet rest k v

/-! ## Option registry (OptionContext.ts) -/

/-- Per-category option state, as in the OptionState interface of the source:
the key, the registered option values, the optional default value, and the
availability counter. The counter is an integer: the source applies a plain
decrement with no lower bound. -/
structure OptionState where
  key : String
  options : List String
  defaultValue : Option String := none
  available : Int
deriving Repr, DecidableEq

/-- The OptionContext class state: the constructed category catalog, the
per-category state map, the current value map, and the listener firings.
Listener sets are opaque functions in the source, so firing is modelled by
logs: valueEvents records every value-listener broadcast with its key and
value, stateEvents counts every notifyListener call. -/
structure OptionContext where
  catalog : List String
  state : List (String × OptionState)
  data : List (String × String)
  valueEvents : List (String × String)
  stateEvents : Nat
deriving Repr, DecidableEq

/-- The OptionContext constructor: one entry per catalog key, each with an
empty option list, no default, and a zero availability counter. -/
def mkOptionContext (catalog : List String) : OptionContext :=
  { catalog := catalog
    state := catalog.map fun k => (k, { key := k, options := [], available := 0 })
    data := []
    valueEvents := []
    stateEvents := 0 }

/-- getOptionState: the state entry for a key, or null when the key is not in
the constructed map. -/
def getOptionState (c : OptionContext) (k : String) : Option OptionState :=
  assocGet c.state k

/-- The private setState helper: merge one key into the state map and notify
all state listeners. -/
def setState (c : OptionContext) (k : String) (st : OptionState) : OptionContext :=
  { c with state := assocSet c.state k st, stateEvents := c.stateEvents + 1 }

/-- optionEnter: increment the availability counter for a key; no-op when the
key is unknown. -/
def optionEnter (c : OptionContext) (k : String) : OptionContext :=
  match getOptionState c k with
  | none => c
  | some st => setState c k { st with available := st.available + 1 }

/-- optionExit: decrement the availability counter for a key; no-op when the
key is unknown. The decrement itself is unconditional. -/
def optionExit (c : OptionContext) (k : String) : OptionContext :=
  match getOptionState c k with
  | none => c
  | some st => setState c k { st with available := st.available - 1 }

/-- getValue: null for an unknown key; otherwise the current data entry when
truthy, else the default value when truthy, else null. The truthiness tests
mirror the source, which tests the plain values. -/
def getValue (c : OptionContext) (k : String) : Option String :=
  match getOptionState c k with
  | none => none
  | some st =>
      let v := assocGet c.data k
      if strTruthy v then v
      else if strTruthy st.defaultValue then st.defaultValue else none

/-- setValue: write into the current value map, fire every value listener with
the key and value, then notify all state listeners. The source performs no
catalog check here. -/
def setValue (c : OptionContext) (k v : String) : OptionContext :=
  { c with
    data := assocSet c.data k v
    valueEvents := c.valueEvents ++ [(k, v)]
    stateEvents := c.stateEvents + 1 }

/-- setData: bulk-replace the whole current value map and notify state
listeners only. -/
def setData (c : OptionContext) (m : List (String × String)) : OptionContext :=
  { c with data := m, stateEvents := c.stateEvents + 1 }

/-- setDefaultValue: overwrite the default value for a key; no-op when the key
is unknown. -/
def setDefaultValue (c : OptionContext) (k dv : String) : OptionContext :=
  match getOptionState c k with
  | none => c
  | some st => setState c k { st with defaultValue := some dv }

/-- setOptions: replace the registered option values for a key; no-op when the
key is unknown. The registry itself performs no duplicate check. -/
def setOptions (c : OptionContext) (k : String) (opts : List String) : OptionContext :=
  match getOptionState c k with
  | none => c
  | some st => setState c k { st with key := k, options := opts }

/-- The registration step of the Selector mount effect (Selector.tsx): the
extracted candidate tags are registered through setOptions only when the tag
list is non-empty and duplicate-free, and are silently dropped otherwise. -/
def registerCandidates (c : OptionContext) (k : String) (values : List String) : OptionContext :=
  if 0 < values.length ∧ values.Nodup then setOptions c k values else c

/-- The availability counter visible for a key; zero for an unknown key. -/
def availableOf (c : OptionContext) (k : String) : Int :=
  match getOptionState c k with
  | none => 0
  | some st => st.available

/-- The registered option values visible for a key; empty for an unknown
key. -/
def optionsOf (c : OptionContext) (k : String) : List String :=
  match getOptionState c k with
  | none => []
  | some st => st.options

/-! ## Variant selector resolution (Selector.tsx) -/

/-- One Selector child: a candidate element whose component type carries the
required optionValue tag, plus an identity so that distinct children with
equal tags stay distinguishable. -/
structure Candidate where
  optionValue : String
  id : Nat
deriving Repr, DecidableEq

/-- The Selector render scan: when no value is resolved (null or empty
string) render nothing; otherwise iterate over the children in order,
overwriting the result with every child whose tag equals the value, so the
scan keeps the most recent match. -/
def selectorResolve (value : Option String) (children : List Candidate) : Option Candidate :=
  match value with
  | none => none
  | some v =>
      if v = "" then none
      else children.foldl (fun acc child => if child.optionValue = v then some child else acc) none

/-- Modelled from the spec for comparison: resolution as the spec words it,
returning the first candidate whose tag equals the current value. -/
def specSelectorResolveFirst (value : Option String) (children : List Candidate) : Option Candidate :=
  match value with
  | none => none
  | some v =>
      if v = "" then none
      else children.find? (fun child => child.optionValue = v)

/-! ## Registry operation sequences -/

/-- One registry operation, used for stating properties over operation
sequences. -/
inductive RegOp
  | enter (k : String)
  | exit (k : String)
  | setVal (k v : String)
  | setAll (m : List (String × String))
  | setDefault (k v : String)
  | register (k : String) (tags : List String)
deriving Repr, DecidableEq

/-- Apply one registry operation. -/
def applyOp (c : OptionContext) : RegOp → OptionContext
  | .enter k => optionEnter c k
  | .exit k => optionExit c k
  | .setVal k v => setValue c k v
  | .setAll m => setData c m
  | .setDefault k v => setDefaultValue c k v
  | .register k tags => registerCandidates c k tags

/-- Apply a sequence of registry operations in order. -/
def applyOps (ops : List RegOp) (c : OptionContext) : OptionContext :=
  ops.foldl applyOp c

/-- Whether an operation writes the current value entry of the given key:
setValue on that key, or the bulk setData replacement. -/
def writesKey (k : String) : RegOp → Bool
  | .setVal k2 _ => k2 = k
  | .setAll _ => true
  | _ => false

/-- Apply a sequence of paired enter and exit calls on one key: true stands
for enter, false for exit. -/
def runEnterExit (seq : List Bool) (c : OptionContext) (k : String) : OptionContext :=
  seq.foldl (fun c b => if b then optionEnter c k else optionExit c k) c

/-! ## Clamping and feature flags (index.tsx) -/

/-- Math.max on two rationals, written through the order test so that it
evaluates. -/
def jsMax (a b : ℚ) : ℚ := if a ≤ b then b else a

/-- Math.min on two rationals, written through the order test so that it
evaluates. -/
def jsMin (a b : ℚ) : ℚ := if a ≤ b then a else b

/-- The animationSpeed clamp: when the raw prop is truthy, clamp it into
500 to 3000; a falsy raw prop yields undefined. -/
def animationSpeed (raw : Option ℚ) : Option ℚ :=
  match raw with
  | none => none
  | some q => if q ≠ 0 then some (jsMax 500 (jsMin 3000 q)) else none

/-- The hoverScale clamp: when the raw prop is truthy, clamp it into
1.05 to 1.32; a falsy raw prop yields undefined. -/
def hoverScale (raw : Option ℚ) : Option ℚ :=
  match raw with
  | none => none
  | some q => if q ≠ 0 then some (jsMax 1.05 (jsMin 1.32 q)) else none

/-- hasHoverScale: the clamped scale is present and greater than one. -/
def hasHoverScale (raw : Option ℚ) : Bool :=
  match hoverScale raw with
  | none => false
  | some s => s > 1

/-- hasIdleAnimation: the clamped animation speed is present and below
50000. -/
def hasIdleAnimation (raw : Option ℚ) : Bool :=
  match animationSpeed raw with
  | none => false
  | some s => s < 50000

/-! ## The animation session of the Avatar component (index.tsx)

The mounted component is modelled as an executable state machine. React
state cells, the stateRef mirror, the four timer refs and the two saved
snapshots are the state; pointer events, timer callbacks firing, and effect
passes are the events. Every expression cell write is appended to a log
together with the code site that performed it, so that claims about which
code path mutated a cell become statements about the log. Random draws of
the source are threaded as event parameters, universally quantified in the
theorems. -/

/-- An expression triple as saved and restored by the coordinator. -/
structure Expr3 where
  mouth : String
  eyes : String
  eyebrow : String
deriving Repr, DecidableEq

/-- The animation-relevant props of the Avatar component. Option models an
absent (undefined) prop. -/
structure AvatarProps where
  rawAnimationSpeed : Option ℚ := none
  rawHoverScale : Option ℚ := none
  hoverSequence : Option (List Expr3) := none
  propEyeType : Option String := none
  propEyebrowType : Option String := none
  propMouthType : Option String := none
  originalEyeType : Option String := none
  originalEyebrowType : Option String := none
  originalMouthType : Option String := none
deriving Repr, DecidableEq

/-- hasHoverAnimation: a hover sequence prop is present and non-empty. -/
def hasHoverAnimation (p : AvatarProps) : Bool :=
  match p.hoverSequence with
  | none => false
  | some l => 0 < l.length

/-- canAnimateExpressions: none of the three expression props is defined. -/
def canAnimateExpressions (p : AvatarProps) : Bool :=
  p.propEyeType.isNone && p.propEyebrowType.isNone && p.propMouthType.isNone

/-- needsHoverHandlers: hover scale or hover animation is enabled. -/
def needsHoverHandlers (p : AvatarProps) : Bool :=
  hasHoverScale p.rawHoverScale || hasHoverAnimation p

/-- isIdleAnimating: idle animation is enabled and no expression prop is
defined. -/
def isIdleAnimating (p : AvatarProps) : Bool :=
  hasIdleAnimation p.rawAnimationSpeed && canAnimateExpressions p

/-- The expression cell a state setter writes. -/
inductive Cell
  | mouth
  | eyes
  | eyebrow
deriving Repr, DecidableEq

/-- getFallbackOptions: the hardcoded fallback option list per expression
cell. -/
def getFallbackOptions : Cell → List String
  | .mouth =>
      ["Concerned", "Default", "Disbelief", "Eating", "Grimace", "Sad",
       "ScreamOpen", "Serious", "Smile", "Tongue", "Twinkle", "Vomit"]
  | .eyes =>
      ["Close", "Cry", "Default", "Dizzy", "EyeRoll", "Happy", "Hearts",
       "Side", "Squint", "Surprised", "Wink", "WinkWacky"]
  | .eyebrow =>
      ["Angry", "AngryNatural", "Default", "DefaultNatural", "FlatNatural",
       "RaisedExcited", "RaisedExcitedNatural", "SadConcerned",
       "SadConcernedNatural", "UnibrowNatural", "UpDown", "UpDownNatural"]

/-- getDefaultHoverSequence: the hardcoded four-step hover sequence. -/
def getDefaultHoverSequence : List Expr3 :=
  [⟨"Disbelief", "Surprised", "UpDown"⟩,
   ⟨"ScreamOpen", "Dizzy", "Angry"⟩,
   ⟨"Vomit", "Close", "SadConcerned"⟩,
   ⟨"Grimace", "EyeRoll", "UnibrowNatural"⟩]

/-- Provenance of one expression-cell write: the code site performing it. -/
inductive Site
  | idleSeed
  | idleChange
  | hoverTick
  | enterSeed
  | restoreStep
  | restoreClear
  | scaleRestore
deriving Repr, DecidableEq

/-- One logged expression mutation: provenance, cell, and the new value
(none models clearing the cell back to null). -/
structure Mutation where
  site : Site
  cell : Cell
  value : Option String
deriving Repr, DecidableEq

/-- What a pending restoreSequenceTimeout will do when it fires: run
restoreNext at a step index over the captured targets, or run the final
completion callback. The flag records which mouse leave branch captured the
continuation (true: the idle animation branch, false: the original props
branch). -/
inductive RestoreCont
  | step (targets : List (Cell × String)) (idx : Nat) (idleBranch : Bool)
  | final (idleBranch : Bool)
deriving Repr, DecidableEq

/-- The mounted animation session. A some timer slot is a live scheduled
callback; cancelling writes none. The anim and restore slots record the
scheduled delay in ms, the hover slot records the captured sequence index of
the interval, the restore sequence slot records the captured continuation.
The ref fields mirror stateRef.current. -/
structure Session where
  mouth : Option String := none
  eyes : Option String := none
  eyebrow : Option String := none
  isHovered : Bool := false
  isMouseHovered : Bool := false
  refHovered : Bool := false
  refMouth : Option String := none
  refEyes : Option String := none
  refEyebrow : Option String := none
  animTimer : Option ℚ := none
  hoverTimer : Option Nat := none
  restoreTimer : Option ℚ := none
  restoreSeqTimer : Option RestoreCont := none
  savedState : Option Expr3 := none
  originalSaved : Option (Option String × Option String × Option String) := none
  isScheduling : Bool := false
  log : List Mutation := []
deriving Repr, DecidableEq

/-- setMouth with provenance logging. -/
def setMouth (site : Site) (v : Option String) (s : Session) : Session :=
  { s with mouth := v, log := s.log ++ [⟨site, .mouth, v⟩] }

/-- setEyes with provenance logging. -/
def setEyes (site : Site) (v : Option String) (s : Session) : Session :=
  { s with eyes := v, log := s.log ++ [⟨site, .eyes, v⟩] }

/-- setEyebrow with provenance logging. -/
def setEyebrow (site : Site) (v : Option String) (s : Session) : Session :=
  { s with eyebrow := v, log := s.log ++ [⟨site, .eyebrow, v⟩] }

/-- Write a given cell with provenance logging. -/
def setCell (site : Site) (c : Cell) (v : Option String) (s : Session) : Session :=
  match c with
  | .mouth => setMouth site v s
  | .eyes => setEyes site v s
  | .eyebrow => setEyebrow site v s

/-- scheduleNextChange: clear any pending idle timer, then, unless the ref
state is hovered or has no truthy mouth, schedule the next idle change with
delay max 500 (floor of d times speed over 2000), d being the random base
delay draw and speed the clamped animation speed defaulting to 2000. -/
def scheduleNextChange (p : AvatarProps) (d : ℚ) (s : Session) : Session :=
  let s := { s with animTimer := none }
  if s.refHovered || !strTruthy s.refMouth then s
  else
    let speed := (animationSpeed p.rawAnimationSpeed).getD 2000
    { s with animTimer := some (jsMax 500 ((⌊d * speed / 2000⌋ : ℤ) : ℚ)) }

/-- changeRandomFeature: unless the ref state is hovered or has no truthy
mouth, pick one of the three cells from the feature draw and move it to a
drawn fallback value different from the current ref value. -/
def changeRandomFeature (featDraw valDraw : Nat) (s : Session) : Session :=
  if s.refHovered || !strTruthy s.refMouth then s
  else
    let feature := featDraw % 3
    if feature = 0 then
      let opts := (getFallbackOptions .mouth).filter (fun m => some m ≠ s.refMouth)
      if 0 < opts.length then
        setMouth .idleChange (some (opts.getD (valDraw % opts.length) "")) s
      else s
    else if feature = 1 then
      let opts := (getFallbackOptions .eyes).filter (fun e => some e ≠ s.refEyes)
      if 0 < opts.length then
        setEyes .idleChange (some (opts.getD (valDraw % opts.length) "")) s
      else s
    else
      let opts := (getFallbackOptions .eyebrow).filter (fun e => some e ≠ s.refEyebrow)
      if 0 < opts.length then
        setEyebrow .idleChange (some (opts.getD (valDraw % opts.length) "")) s
      else s

/-- The idle timer callback: null the slot, changeRandomFeature, then
scheduleNextChange. Firing an empty slot does nothing. -/
def fireAnimTimer (p : AvatarProps) (featDraw valDraw : Nat) (d : ℚ) (s : Session) : Session :=
  match s.animTimer with
  | none => s
  | some _ =>
      let s := { s with animTimer := none }
      scheduleNextChange p d (changeRandomFeature featDraw valDraw s)

/-- startHoverSequence: start the hover interval with captured index zero
when hover animation is enabled. -/
def startHoverSequence (p : AvatarProps) (s : Session) : Session :=
  if !hasHoverAnimation p then s
  else { s with hoverTimer := some 0 }

/-- One hover interval tick: apply the wrapped sequence entry to the three
cells in lockstep and advance the captured index. Firing an empty slot does
nothing. -/
def fireHoverTimer (p : AvatarProps) (s : Session) : Session :=
  match s.hoverTimer with
  | none => s
  | some i =>
      let seq :=
        match p.hoverSequence with
        | some l => l
        | none => getDefaultHoverSequence
      let e := seq.getD (i % seq.length) ⟨"", "", ""⟩
      let s := setMouth .hoverTick (some e.mouth) s
      let s := setEyes .hoverTick (some e.eyes) s
      let s := setEyebrow .hoverTick (some e.eyebrow) s
      { s with hoverTimer := some (i + 1) }

/-- The original prop snapshot step of handleMouseEnter: prefer the explicit
original override props, else the expression props, else leave the record
unchanged. -/
def enterSaveOriginal (p : AvatarProps) (s : Session) : Session :=
  if p.originalEyeType.isSome || p.originalEyebrowType.isSome || p.originalMouthType.isSome then
    { s with originalSaved := some (p.originalEyeType, p.originalEyebrowType, p.originalMouthType) }
  else if p.propEyeType.isSome || p.propEyebrowType.isSome || p.propMouthType.isSome then
    { s with originalSaved := some (p.propEyeType, p.propEyebrowType, p.propMouthType) }
  else s

/-- The expression seeding step of the no-idle hover animation branch of
handleMouseEnter: when expressions may be animated, copy each truthy
expression prop into its empty cell so the hover sequence can override
it. -/
def enterSeedCells (p : AvatarProps) (s : Session) : Session :=
  if canAnimateExpressions p then
    let s2 :=
      if strTruthy p.propMouthType && !strTruthy s.mouth then
        setMouth .enterSeed p.propMouthType s
      else s
    let s3 :=
      if strTruthy p.propEyeType && !strTruthy s.eyes then
        setEyes .enterSeed p.propEyeType s2
      else s2
    if strTruthy p.propEyebrowType && !strTruthy s.eyebrow then
      setEyebrow .enterSeed p.propEyebrowType s3
    else s3
  else s

/-- The saving step of the hover animation branch of handleMouseEnter: with
idle animation running, snapshot the current triple and pause the idle
timer; otherwise snapshot the prop-or-state triple and seed the cells. -/
def enterHoverSave (p : AvatarProps) (s : Session) : Session :=
  if isIdleAnimating p then
    { s with
      savedState := some ⟨strGetD s.mouth "Default", strGetD s.eyes "Default",
        strGetD s.eyebrow "Default"⟩
      animTimer := none }
  else
    enterSeedCells p
      { s with
        savedState := some ⟨strGetD (jsOr p.propMouthType s.mouth) "Default",
          strGetD (jsOr p.propEyeType s.eyes) "Default",
          strGetD (jsOr p.propEyebrowType s.eyebrow) "Default"⟩ }

/-- handleMouseEnter: clear a pending restore pause timer, raise both hover
flags, save the original prop values when any are present, and branch on the
enabled features: with hover animation, snapshot the current triple (pausing
the idle timer when idle animation runs, seeding the cells from props
otherwise) and start the hover interval; with idle animation only, snapshot
the triple and pause the idle timer. The restore sequence slot is not
touched here. -/
def handleMouseEnter (p : AvatarProps) (s : Session) : Session :=
  if !needsHoverHandlers p then s
  else
    let s2 := enterSaveOriginal p
      { s with restoreTimer := none, isHovered := true, isMouseHovered := true }
    if hasHoverAnimation p then
      startHoverSequence p (enterHoverSave p s2)
    else if isIdleAnimating p then
      { s2 with
        savedState := some ⟨strGetD s2.mouth "Default", strGetD s2.eyes "Default",
          strGetD s2.eyebrow "Default"⟩
        animTimer := none }
    else s2

/-- The saved original mouth value as the restore completion reads it: the
optional chain against the saved record, with a falsy value becoming null. -/
def origMouth : Option (Option String × Option String × Option String) → Option String
  | none => none
  | some (_, _, m) => if strTruthy m then m else none

/-- The saved original eye value as the restore completion reads it. -/
def origEye : Option (Option String × Option String × Option String) → Option String
  | none => none
  | some (e, _, _) => if strTruthy e then e else none

/-- The saved original eyebrow value as the restore completion reads it. -/
def origEyebrow : Option (Option String × Option String × Option String) → Option String
  | none => none
  | some (_, b, _) => if strTruthy b then b else none

/-- The restore completion of the idle branch: unhover the state and the ref
mirror, drop the saved snapshot, clear the scheduling flag, reschedule the
idle timer, and null both restore slots. -/
def restoreDoneIdle (p : AvatarProps) (d : ℚ) (s : Session) : Session :=
  let s := { s with
    isHovered := false, refHovered := false
    savedState := none, isScheduling := false }
  let s := scheduleNextChange p d s
  { s with restoreSeqTimer := none, restoreTimer := none }

/-- The restore completion of the original props branch: unhover, write the
saved original prop values (or clear to null) into the three cells, drop
both saved records, and null both restore slots. -/
def restoreDoneProps (s : Session) : Session :=
  let s := { s with isHovered := false }
  let s := setMouth .restoreClear (origMouth s.originalSaved) s
  let s := setEyes .restoreClear (origEye s.originalSaved) s
  let s := setEyebrow .restoreClear (origEyebrow s.originalSaved) s
  { s with
    originalSaved := none, savedState := none
    restoreSeqTimer := none, restoreTimer := none }

/-- restoreNext: past the end of the targets run the completion of the
captured branch; otherwise apply the current target, then arm the restore
sequence slot with the next step (800 ms) or with the final completion
(100 ms). -/
def restoreNext (p : AvatarProps) (d : ℚ) (targets : List (Cell × String)) (idx : Nat)
    (idleBranch : Bool) (s : Session) : Session :=
  if targets.length ≤ idx then
    if idleBranch then restoreDoneIdle p d s else restoreDoneProps s
  else
    let t := targets.getD idx (Cell.mouth, "")
    let s := setCell .restoreStep t.1 (some t.2) s
    if idx + 1 < targets.length then
      { s with restoreSeqTimer := some (.step targets (idx + 1) idleBranch) }
    else
      { s with restoreSeqTimer := some (.final idleBranch) }

/-- The 600 ms restore pause callback of handleMouseLeave. The branch is
fixed when the timeout is scheduled: the source schedules the idle variant
exactly when isIdleAnimating holds, a pure function of the props. With a
saved snapshot the stepped restore starts at once on the mouth cell; with no
snapshot the callback unhovers and either reschedules idle or clears the
cells to the saved original props. -/
def fireRestoreTimer (p : AvatarProps) (d : ℚ) (s : Session) : Session :=
  match s.restoreTimer with
  | none => s
  | some _ =>
      let s := { s with restoreTimer := none }
      if isIdleAnimating p then
        match s.savedState with
        | some t =>
            restoreNext p d [(Cell.mouth, t.mouth), (Cell.eyes, t.eyes), (Cell.eyebrow, t.eyebrow)]
              0 true s
        | none =>
            let s := { s with isHovered := false, refHovered := false, isScheduling := false }
            scheduleNextChange p d s
      else
        match s.savedState with
        | some t =>
            restoreNext p d [(Cell.mouth, t.mouth), (Cell.eyes, t.eyes), (Cell.eyebrow, t.eyebrow)]
              0 false s
        | none =>
            let s := { s with isHovered := false }
            let s := setMouth .restoreClear (origMouth s.originalSaved) s
            let s := setEyes .restoreClear (origEye s.originalSaved) s
            let s := setEyebrow .restoreClear (origEyebrow s.originalSaved) s
            { s with originalSaved := none }

/-- The restoreSequenceTimeout callback: consume the slot and run the
captured continuation. Firing an empty slot does nothing. -/
def fireRestoreSeqTimer (p : AvatarProps) (d : ℚ) (s : Session) : Session :=
  match s.restoreSeqTimer with
  | none => s
  | some (.step targets idx idleBranch) =>
      restoreNext p d targets idx idleBranch { s with restoreSeqTimer := none }
  | some (.final idleBranch) =>
      let s := { s with restoreSeqTimer := none }
      if idleBranch then restoreDoneIdle p d s else restoreDoneProps s

/-- handleMouseLeave: clear a pending restore pause timer, stop the hover
interval, drop the mouse-over flag, then branch: with hover animation and a
saved snapshot schedule the 600 ms restore pause; with idle animation only
and a saved snapshot restore the snapshot at once, unhover the ref mirror,
and reschedule the idle timer. The restore sequence slot is not touched
here. -/
def handleMouseLeave (p : AvatarProps) (d : ℚ) (s : Session) : Session :=
  if !needsHoverHandlers p then s
  else
    let s := { s with restoreTimer := none }
    let s := { s with hoverTimer := none }
    let s := { s with isMouseHovered := false }
    if hasHoverAnimation p && s.savedState.isSome then
      { s with restoreTimer := some 600 }
    else if isIdleAnimating p && s.savedState.isSome then
      match s.savedState with
      | none => s
      | some t =>
          let s := setMouth .scaleRestore (some t.mouth) s
          let s := setEyes .scaleRestore (some t.eyes) s
          let s := setEyebrow .scaleRestore (some t.eyebrow) s
          let s := { s with savedState := none, refHovered := false, isScheduling := false }
          scheduleNextChange p d s
    else s

/-- One React commit effect pass over the animation session, run with the
render snapshot the effect closures captured: the stateRef sync effect, the
idle random seeding effect, and the idle scheduling effect, in source order.
The three nat draws seed the random initial expressions; d is the schedule
delay draw. Refs are read and written live, captured state is read from the
snapshot. -/
def effectPass (p : AvatarProps) (m e b : Nat) (d : ℚ) (s : Session) : Session :=
  let s0 := s
  let s := { s with
    refHovered := s0.isHovered, refMouth := s0.mouth
    refEyes := s0.eyes, refEyebrow := s0.eyebrow }
  let s :=
    if isIdleAnimating p then
      let s :=
        if !strTruthy s0.mouth then
          setMouth .idleSeed
            (some ((getFallbackOptions .mouth).getD (m % (getFallbackOptions .mouth).length) "")) s
        else s
      let s :=
        if !strTruthy s0.eyes then
          setEyes .idleSeed
            (some ((getFallbackOptions .eyes).getD (e % (getFallbackOptions .eyes).length) "")) s
        else s
      if !strTruthy s0.eyebrow then
        setEyebrow .idleSeed
          (some ((getFallbackOptions .eyebrow).getD (b % (getFallbackOptions .eyebrow).length) "")) s
      else s
    else s
  if !isIdleAnimating p then { s with isScheduling := false }
  else if !strTruthy s0.mouth || s.isScheduling then s
  else scheduleNextChange p d { s with isScheduling := true }

/-- The unmount cleanup effect: clear all four timer slots and the scheduling
flag, unconditionally. -/
def unmountCleanup (s : Session) : Session :=
  { s with
    animTimer := none, hoverTimer := none
    restoreTimer := none, restoreSeqTimer := none
    isScheduling := false }

/-- External events driving one mounted session: pointer enter and leave,
the four timer callbacks firing (with their random draws), and an effect
pass. -/
inductive Ev
  | mouseEnter
  | mouseLeave (d : ℚ)
  | fireAnim (featDraw valDraw : Nat) (d : ℚ)
  | fireHover
  | fireRestore (d : ℚ)
  | fireRestoreSeq (d : ℚ)
  | effects (m e b : Nat) (d : ℚ)
deriving Repr, DecidableEq

/-- Apply one event to the session. -/
def stepEv (p : AvatarProps) (s : Session) : Ev → Session
  | .mouseEnter => handleMouseEnter p s
  | .mouseLeave d => handleMouseLeave p d s
  | .fireAnim f v d => fireAnimTimer p f v d s
  | .fireHover => fireHoverTimer p s
  | .fireRestore d => fireRestoreTimer p d s
  | .fireRestoreSeq d => fireRestoreSeqTimer p d s
  | .effects m e b d => effectPass p m e b d s

/-- Run a list of events in order. -/
def runEvents (p : AvatarProps) (evs : List Ev) (s : Session) : Session :=
  evs.foldl (stepEv p) s

/-- The freshly mounted session. -/
def initSession : Session := {}

/-- Whether an event is one of the four timer callbacks firing: the only
thing that can still reach the scheduled work of a component after its DOM
handlers and effects are gone. -/
def Ev.isFire : Ev → Bool
  | .fireAnim _ _ _ => true
  | .fireHover => true
  | .fireRestore _ => true
  | .fireRestoreSeq _ => true
  | _ => false

/-- All four timer slots of a session are empty. -/
def Session.noTimers (s : Session) : Bool :=
  s.animTimer.isNone && s.hoverTimer.isNone && s.restoreTimer.isNone && s.restoreSeqTimer.isNone

/-- A pending restore continuation (if any) was captured by the original
props branch, not the idle branch. -/
def contOk : Option RestoreCont → Bool
  | none => true
  | some (.step _ _ br) => !br
  | some (.final br) => !br

/-- No entry of the log was written by the idle animation (neither the
random seeding effect nor changeRandomFeature). -/
def logIdleFree (l : List Mutation) : Bool :=
  l.all fun mu => !(mu.site == Site.idleSeed) && !(mu.site == Site.idleChange)

/-- The idle animation has no foothold in the session: no idle timer is
pending, no pending restore continuation would resume idle scheduling, and
no logged mutation came from the idle animation. -/
def idleFree (s : Session) : Bool :=
  s.animTimer.isNone && contOk s.restoreSeqTimer && logIdleFree s.log

/-- Props of the restoration re-entry scenario: idle animation at speed 2000
and a one-step hover sequence. -/
def reentryProps : AvatarProps :=
  { rawAnimationSpeed := some 2000
    hoverSequence := some [⟨"Tongue", "Hearts", "UpDown"⟩] }

/-- The re-entry scenario up to and including the second mouse enter: two
effect passes (random seeding, then idle scheduling), hover enter, hover
leave, the 600 ms restore pause firing (which applies the first restore
step and arms the 800 ms step timer), then pointer re-entry while that step
timer is still pending. -/
def reentryPrefix : List Ev :=
  [.effects 0 0 0 1500, .effects 0 0 0 1500, .mouseEnter, .mouseLeave 1500,
   .fireRestore 1500, .mouseEnter]

/-- The same scenario, advanced past the 800 ms deadline of the restore step
timer that the re-entry left pending. -/
def reentryFull : List Ev := reentryPrefix ++ [.fireRestoreSeq 1500]

/-! ## Theorems -/

/-- Claim C10: the registry does not enforce non-negativity of the reference
count. A single optionExit call on a freshly constructed registry, whose
counters all start at zero, leaves the counter at minus one. -/
theorem exit_on_fresh_registry_goes_negative :
    availableOf (mkOptionContext ["mouthType"]) "mouthType" = 0 ∧
    availableOf (optionExit (mkOptionContext ["mouthType"]) "mouthType") "mouthType" = -1 := by
  decide

/-- Claim C8: registering a candidate tag list containing duplicates leaves
the valid-value set of the category unchanged (the whole registry, in fact),
and a registration replaces the set only when the tags are duplicate
free. -/
theorem registerCandidates_rejects_duplicates :
    (∀ (c : OptionContext) (k : String) (tags : List String), ¬ tags.Nodup →
        registerCandidates c k tags = c) ∧
    (∀ (c : OptionContext) (k : String) (tags : List String),
        optionsOf (registerCandidates c k tags) k ≠ optionsOf c k → tags.Nodup) := by
  constructor
  · intro c k tags hdup
    unfold registerCandidates
    rw [if_neg]
    intro hcond
    exact hdup hcond.2
  · intro c k tags hne
    by_cases hn : tags.Nodup
    · exact hn
    · exfalso
      apply hne
      unfold registerCandidates
      rw [if_neg]
      intro hcond
      exact hn hcond.2

/-- Witness for claim C8 at the concrete duplicate list of the spec. -/
theorem registerCandidates_rejects_duplicates_witness :
    ¬ (["A", "B", "A"] : List String).Nodup ∧
    registerCandidates (mkOptionContext ["mouthType"]) "mouthType" ["A", "B", "A"] =
      mkOptionContext ["mouthType"] :=
  ⟨by decide, registerCandidates_rejects_duplicates.1 _ _ _ (by decide)⟩

/-- Claim C4 counterexample: setValue on a key outside the constructed
catalog is not a no-op. It changes the current value map and fires the value
listeners, refuting the claim that every operation on an unknown key leaves
all registry state unchanged and fires no listeners. -/
theorem unknown_key_setValue_counterexample :
    getOptionState (mkOptionContext ["eyeType"]) "mouthType" = none ∧
    (setValue (mkOptionContext ["eyeType"]) "mouthType" "Smile").valueEvents ≠
      (mkOptionContext ["eyeType"]).valueEvents ∧
    (setValue (mkOptionContext ["eyeType"]) "mouthType" "Smile").data ≠
      (mkOptionContext ["eyeType"]).data ∧
    (setValue (mkOptionContext ["eyeType"]) "mouthType" "Smile").stateEvents ≠
      (mkOptionContext ["eyeType"]).stateEvents := by
  decide

/-- Claim C4 as amended: on a key with no constructed state entry, enter,
exit, setDefaultValue, setOptions and the selector registration are exact
no-ops and getValue returns null; setValue, however, writes the value map
and fires both listener kinds even for such a key, while leaving the
per-category state untouched, so getValue on that key still returns
null. No operation throws (all are total functions). -/
theorem unknown_key_ops_amended :
    ∀ (c : OptionContext) (k : String), getOptionState c k = none →
      ∀ (v dv : String) (tags : List String),
        optionEnter c k = c ∧
        optionExit c k = c ∧
        setDefaultValue c k dv = c ∧
        setOptions c k tags = c ∧
        registerCandidates c k tags = c ∧
        getValue c k = none ∧
        (setValue c k v).valueEvents = c.valueEvents ++ [(k, v)] ∧
        (setValue c k v).stateEvents = c.stateEvents + 1 ∧
        (setValue c k v).state = c.state ∧
        getValue (setValue c k v) k = none := by
  intro c k h v dv tags
  have hsetOpts : setOptions c k tags = c := by
    unfold setOptions
    rw [h]
  refine ⟨?_, ?_, ?_, hsetOpts, ?_, ?_, rfl, rfl, rfl, ?_⟩
  · unfold optionEnter
    rw [h]
  · unfold optionExit
    rw [h]
  · unfold setDefaultValue
    rw [h]
  · unfold registerCandidates
    split <;> simp [hsetOpts]
  · unfold getValue
    rw [h]
  · unfold getValue
    have : getOptionState (setValue c k v) k = none := h
    rw [this]

/-- Witness for claim C4 at a concrete registry and unknown key. -/
theorem unknown_key_ops_amended_witness :
    optionEnter (mkOptionContext ["eyeType"]) "mouthType" = mkOptionContext ["eyeType"] ∧
    optionExit (mkOptionContext ["eyeType"]) "mouthType" = mkOptionContext ["eyeType"] ∧
    setDefaultValue (mkOptionContext ["eyeType"]) "mouthType" "Default" =
      mkOptionContext ["eyeType"] ∧
    setOptions (mkOptionContext ["eyeType"]) "mouthType" ["A"] = mkOptionContext ["eyeType"] ∧
    registerCandidates (mkOptionContext ["eyeType"]) "mouthType" ["A"] =
      mkOptionContext ["eyeType"] ∧
    getValue (mkOptionContext ["eyeType"]) "mouthType" = none ∧
    (setValue (mkOptionContext ["eyeType"]) "mouthType" "Smile").valueEvents =
      (mkOptionContext ["eyeType"]).valueEvents ++ [("mouthType", "Smile")] ∧
    (setValue (mkOptionContext ["eyeType"]) "mouthType" "Smile").stateEvents =
      (mkOptionContext ["eyeType"]).stateEvents + 1 ∧
    (setValue (mkOptionContext ["eyeType"]) "mouthType" "Smile").state =
      (mkOptionContext ["eyeType"]).state ∧
    getValue (setValue (mkOptionContext ["eyeType"]) "mouthType" "Smile") "mouthType" = none :=
  unknown_key_ops_amended _ _ (by decide) "Smile" "Default" ["A"]

/-- Claim C2 counterexample: a configured hover scale of exactly 1.0 is
truthy, clamps to 1.05, and the activation test compares the clamped value
against 1, so the input 1.0 does activate hover scaling, contrary to the
claim. -/
theorem hover_scale_one_counterexample :
    hoverScale (some 1) = some 1.05 ∧ hasHoverScale (some 1) = true := by
  have h1 : hoverScale (some 1) = some 1.05 := by
    norm_num [hoverScale, jsMax, jsMin]
  refine ⟨h1, ?_⟩
  unfold hasHoverScale
  rw [h1]
  norm_num

/-- Claim C2 as amended: idle interval 100 clamps to 500 and 10000 clamps to
3000; any truthy configured hover scale is clamped into 1.05 to 1.32;
activation compares the clamped value against 1, so both an input of 1.05
and an input of 1.0 activate hover scaling, and only a falsy (absent or
zero) configured scale deactivates it. -/
theorem clamping_boundaries_amended :
    animationSpeed (some 100) = some 500 ∧
    animationSpeed (some 10000) = some 3000 ∧
    (∀ q : ℚ, q ≠ 0 →
        1.05 ≤ (hoverScale (some q)).getD 0 ∧ (hoverScale (some q)).getD 0 ≤ 1.32) ∧
    (∀ raw : Option ℚ, hasHoverScale raw = true ↔ ∃ s, hoverScale raw = some s ∧ 1 < s) ∧
    hasHoverScale (some 1.05) = true ∧
    hasHoverScale (some 1) = true ∧
    hasHoverScale (some 0) = false ∧
    hasHoverScale none = false := by
  refine ⟨by decide, by decide, ?_, ?_, ?_, ?_, ?_, rfl⟩
  · intro q hq
    simp only [hoverScale, if_pos hq, Option.getD_some]
    unfold jsMax jsMin
    constructor <;> split_ifs <;> linarith
  · intro raw
    unfold hasHoverScale
    cases h : hoverScale raw with
    | none => simp [h]
    | some s => simp [h]
  · have h1 : hoverScale (some 1.05) = some 1.05 := by
      norm_num [hoverScale, jsMax, jsMin]
    unfold hasHoverScale
    rw [h1]
    norm_num
  · have h1 : hoverScale (some 1) = some 1.05 := by
      norm_num [hoverScale, jsMax, jsMin]
    unfold hasHoverScale
    rw [h1]
    norm_num
  · have h0 : hoverScale (some 0) = none := by
      norm_num [hoverScale]
    unfold hasHoverScale
    rw [h0]

/-- Writing one key of an association list changes the lookup at that key and
nothing else. -/
theorem assocGet_assocSet {β : Type} (l : List (String × β)) (k2 k : String) (v : β) :
    assocGet (assocSet l k2 v) k = if k2 = k then some v else assocGet l k := by
  induction l with
  | nil => rfl
  | cons hd tl ih =>
      obtain ⟨a, b⟩ := hd
      by_cases h1 : a = k2
      · subst h1
        by_cases h2 : a = k <;> simp [assocGet, assocSet, h2]
      · by_cases h2 : a = k <;> by_cases h3 : k2 = k <;>
          simp_all [assocGet, assocSet]

/-- The state entry a freshly constructed registry holds for any key it
resolves: the key itself, no options, no default, zero availability. -/
theorem getOptionState_mk_shape (cat : List String) (k : String) (st : OptionState)
    (h : getOptionState (mkOptionContext cat) k = some st) :
    st = { key := k, options := [], defaultValue := none, available := 0 } := by
  induction cat with
  | nil => exact absurd h (by simp [getOptionState, mkOptionContext, assocGet])
  | cons a t ih =>
      by_cases h2 : a = k
      · subst h2
        simp [getOptionState, mkOptionContext, assocGet] at h
        exact h.symm
      · apply ih
        simpa [getOptionState, mkOptionContext, assocGet, h2] using h

/-- A key of the catalog resolves in the freshly constructed registry. -/
theorem getOptionState_mk_mem (cat : List String) (k : String) (h : k ∈ cat) :
    getOptionState (mkOptionContext cat) k =
      some { key := k, options := [], defaultValue := none, available := 0 } := by
  induction cat with
  | nil => cases h
  | cons a t ih =>
      by_cases h2 : a = k
      · subst h2
        simp [getOptionState, mkOptionContext, assocGet]
      · have h3 : k ∈ t := by
          rcases List.mem_cons.mp h with h4 | h4
          · exact absurd h4.symm h2
          · exact h4
        simpa [getOptionState, mkOptionContext, assocGet, h2] using ih h3

/-- A freshly constructed registry resolves every key to null: no value was
set and no default registered. -/
theorem getValue_mk (cat : List String) (k : String) :
    getValue (mkOptionContext cat) k = none := by
  unfold getValue
  cases hs : getOptionState (mkOptionContext cat) k with
  | none => rfl
  | some st =>
      have hshape := getOptionState_mk_shape cat k st hs
      subst hshape
      simp [mkOptionContext, assocGet, strTruthy]

/-- setState keeps every key resolvable that was resolvable before and does
not touch the data map. -/
theorem getOptionState_setState_isSome (c : OptionContext) (k k2 : String) (st : OptionState)
    (hs : (getOptionState c k2).isSome = true) :
    (getOptionState (setState c k2 st) k).isSome = (getOptionState c k).isSome := by
  show (assocGet (assocSet c.state k2 st) k).isSome = (assocGet c.state k).isSome
  rw [assocGet_assocSet]
  by_cases h2 : k2 = k
  · subst h2
    rw [if_pos rfl]
    unfold getOptionState at hs
    cases h : assocGet c.state k2
    · rw [h] at hs
      simp at hs
    · rfl
  · rw [if_neg h2]

/-- A registry operation that does not write the current value of k leaves
both the data entry at k and the resolvability of k unchanged. -/
theorem applyOp_preserves_key (c : OptionContext) (k : String) (op : RegOp)
    (h : writesKey k op = false) :
    assocGet (applyOp c op).data k = assocGet c.data k ∧
    (getOptionState (applyOp c op) k).isSome = (getOptionState c k).isSome := by
  cases op with
  | enter k2 =>
      simp only [applyOp]
      unfold optionEnter
      cases hs : getOptionState c k2 with
      | none => exact ⟨rfl, rfl⟩
      | some st =>
          exact ⟨rfl, getOptionState_setState_isSome c k k2 _ (by rw [hs]; rfl)⟩
  | exit k2 =>
      simp only [applyOp]
      unfold optionExit
      cases hs : getOptionState c k2 with
      | none => exact ⟨rfl, rfl⟩
      | some st =>
          exact ⟨rfl, getOptionState_setState_isSome c k k2 _ (by rw [hs]; rfl)⟩
  | setVal k2 v =>
      have hne : k2 ≠ k := by
        intro hk
        rw [hk] at h
        simp [writesKey] at h
      simp only [applyOp]
      constructor
      · show assocGet (assocSet c.data k2 v) k = assocGet c.data k
        rw [assocGet_assocSet, if_neg hne]
      · rfl
  | setAll m => simp [writesKey] at h
  | setDefault k2 v =>
      simp only [applyOp]
      unfold setDefaultValue
      cases hs : getOptionState c k2 with
      | none => exact ⟨rfl, rfl⟩
      | some st =>
          exact ⟨rfl, getOptionState_setState_isSome c k k2 _ (by rw [hs]; rfl)⟩
  | register k2 tags =>
      simp only [applyOp]
      unfold registerCandidates setOptions
      split
      · cases hs : getOptionState c k2 with
        | none => exact ⟨rfl, rfl⟩
        | some st =>
            exact ⟨rfl, getOptionState_setState_isSome c k k2 _ (by rw [hs]; rfl)⟩
      · exact ⟨rfl, rfl⟩

/-- Once the data entry of k holds a truthy value, any sequence of
operations that never writes k keeps getValue at that value. -/
theorem getValue_persist_core (k v : String) (hv : v ≠ "") :
    ∀ (ops : List RegOp) (c : OptionContext),
      assocGet c.data k = some v → (getOptionState c k).isSome = true →
      (∀ op ∈ ops, writesKey k op = false) →
      getValue (applyOps ops c) k = some v := by
  intro ops
  induction ops with
  | nil =>
      intro c hd hsome _
      show getValue c k = some v
      unfold getValue
      cases hs : getOptionState c k with
      | none => rw [hs] at hsome; simp at hsome
      | some st => simp [hd, strTruthy, hv]
  | cons op t ih =>
      intro c hd hsome hall
      have hop : writesKey k op = false := hall op (by simp)
      have hpres := applyOp_preserves_key c k op hop
      show getValue (applyOps t (applyOp c op)) k = some v
      exact ih (applyOp c op) (by rw [hpres.1]; exact hd) (by rw [hpres.2]; exact hsome)
        (fun op2 hm => hall op2 (by simp [hm]))

/-- Claim C5 counterexample: getValue tests the stored value for JS
truthiness, so an explicitly set empty string is not returned; the lookup
falls through to the default instead, refuting the claim for the string
value of length zero. -/
theorem getValue_empty_string_counterexample :
    getValue (setValue (setDefaultValue (mkOptionContext ["mouthType"]) "mouthType" "Smile")
        "mouthType" "") "mouthType" = some "Smile" ∧
    getValue (setValue (setDefaultValue (mkOptionContext ["mouthType"]) "mouthType" "Smile")
        "mouthType" "") "mouthType" ≠ some "" := by
  decide

/-- Claim C5 as amended: for every catalog key and every non-empty string v,
after setValue of v and any further operations that do not write that key,
getValue returns v; a freshly constructed registry resolves every key to
null, and after registering a non-empty default (and setting no value) it
returns the default. getValue never throws (it is a total function). -/
theorem getValue_resolution_amended :
    (∀ (c : OptionContext) (k v : String) (ops : List RegOp),
        v ≠ "" → (getOptionState c k).isSome = true →
        (∀ op ∈ ops, writesKey k op = false) →
        getValue (applyOps ops (setValue c k v)) k = some v) ∧
    (∀ (cat : List String) (k d : String), k ∈ cat → d ≠ "" →
        getValue (setDefaultValue (mkOptionContext cat) k d) k = some d) ∧
    (∀ (cat : List String) (k : String), getValue (mkOptionContext cat) k = none) := by
  refine ⟨?_, ?_, getValue_mk⟩
  · intro c k v ops hv hsome hall
    apply getValue_persist_core k v hv ops
    · show assocGet (assocSet c.data k v) k = some v
      rw [assocGet_assocSet, if_pos rfl]
    · exact hsome
    · exact hall
  · intro cat k d hk hd
    have hs := getOptionState_mk_mem cat k hk
    unfold setDefaultValue
    rw [hs]
    unfold getValue getOptionState setState
    rw [assocGet_assocSet, if_pos rfl]
    simp [mkOptionContext, assocGet, strTruthy, hd]

/-- Witness for claim C5 at concrete registries, keys and values. -/
theorem getValue_resolution_amended_witness :
    getValue (applyOps [RegOp.enter "eyeType", RegOp.setVal "eyeType" "Happy"]
        (setValue (mkOptionContext ["mouthType"]) "mouthType" "Smile")) "mouthType" =
      some "Smile" ∧
    getValue (setDefaultValue (mkOptionContext ["mouthType"]) "mouthType" "Default")
        "mouthType" = some "Default" ∧
    getValue (mkOptionContext ["mouthType"]) "mouthType" = none :=
  ⟨getValue_resolution_amended.1 _ _ _ _ (by decide) (by decide) (by decide),
   getValue_resolution_amended.2.1 _ _ _ (by decide) (by decide),
   getValue_resolution_amended.2.2 _ _⟩

/-- optionEnter on a resolvable key bumps its counter by one. -/
theorem optionEnter_state (c : OptionContext) (k : String) (st : OptionState)
    (hs : getOptionState c k = some st) :
    getOptionState (optionEnter c k) k = some { st with available := st.available + 1 } := by
  unfold optionEnter
  rw [hs]
  show assocGet (assocSet c.state k _) k = _
  rw [assocGet_assocSet, if_pos rfl]

/-- optionExit on a resolvable key drops its counter by one. -/
theorem optionExit_state (c : OptionContext) (k : String) (st : OptionState)
    (hs : getOptionState c k = some st) :
    getOptionState (optionExit c k) k = some { st with available := st.available - 1 } := by
  unfold optionExit
  rw [hs]
  show assocGet (assocSet c.state k _) k = _
  rw [assocGet_assocSet, if_pos rfl]

/-- Enter and exit sequences on an unknown key do nothing at all. -/
theorem runEnterExit_unknown (k : String) (seq : List Bool) (c : OptionContext)
    (h : getOptionState c k = none) :
    runEnterExit seq c k = c := by
  induction seq with
  | nil => rfl
  | cons b t ih =>
      show runEnterExit t (if b then optionEnter c k else optionExit c k) k = c
      cases b <;> simp only [if_true, if_false, Bool.false_eq_true] <;>
        simp only [optionEnter, optionExit, h] <;> exact ih

/-- Running an enter and exit sequence on a resolvable key keeps it
resolvable and moves the counter by the number of enters minus the number
of exits. -/
theorem runEnterExit_available (k : String) :
    ∀ (seq : List Bool) (c : OptionContext), (getOptionState c k).isSome = true →
      (getOptionState (runEnterExit seq c k) k).isSome = true ∧
      availableOf (runEnterExit seq c k) k =
        availableOf c k + seq.count true - seq.count false := by
  intro seq
  induction seq with
  | nil =>
      intro c h
      refine ⟨h, ?_⟩
      show availableOf c k = availableOf c k + ((0 : ℕ) : ℤ) - ((0 : ℕ) : ℤ)
      omega
  | cons b t ih =>
      intro c h
      obtain ⟨st, hs⟩ := Option.isSome_iff_exists.mp h
      have hstep : getOptionState (if b then optionEnter c k else optionExit c k) k =
          some { st with available := st.available + (if b then 1 else -1) } := by
        cases b
        · simpa using optionExit_state c k st hs
        · simpa using optionEnter_state c k st hs
      have h1 : (getOptionState (if b then optionEnter c k else optionExit c k) k).isSome = true := by
        rw [hstep]; rfl
      obtain ⟨ih1, ih2⟩ := ih _ h1
      have hrun : runEnterExit (b :: t) c k =
          runEnterExit t (if b then optionEnter c k else optionExit c k) k := rfl
      rw [hrun]
      refine ⟨ih1, ?_⟩
      rw [ih2]
      have hav : availableOf (if b then optionEnter c k else optionExit c k) k =
          availableOf c k + (if b then 1 else -1) := by
        unfold availableOf
        rw [hstep, hs]
      rw [hav]
      cases b <;> simp [List.count_cons] <;> omega

/-- Claim C9: over any sequence of paired enter and exit calls on one key
(every prefix has at least as many enters as exits), starting from a
non-negative counter, the counter returns to its starting value once enters
and exits balance, and no prefix drives it negative. -/
theorem reference_count_invariant :
    ∀ (c : OptionContext) (k : String) (seq : List Bool),
      0 ≤ availableOf c k →
      (∀ n : ℕ, ((seq.take n).count false : ℤ) ≤ (seq.take n).count true) →
      ((seq.count true : ℤ) = seq.count false →
        availableOf (runEnterExit seq c k) k = availableOf c k) ∧
      (∀ n : ℕ, 0 ≤ availableOf (runEnterExit (seq.take n) c k) k) := by
  intro c k seq h0 hpre
  cases hs : getOptionState c k with
  | none =>
      constructor
      · intro _
        rw [runEnterExit_unknown k seq c hs]
      · intro n
        rw [runEnterExit_unknown k (seq.take n) c hs]
        exact h0
  | some st =>
      have hsome : (getOptionState c k).isSome = true := by rw [hs]; rfl
      constructor
      · intro hbal
        obtain ⟨_, h2⟩ := runEnterExit_available k seq c hsome
        rw [h2]
        omega
      · intro n
        obtain ⟨_, h2⟩ := runEnterExit_available k (seq.take n) c hsome
        rw [h2]
        have := hpre n
        omega

/-- Witness for claim C9 at a concrete balanced enter and exit sequence. -/
theorem reference_count_invariant_witness :
    availableOf (runEnterExit [true, true, false, false]
        (mkOptionContext ["mouthType"]) "mouthType") "mouthType" =
      availableOf (mkOptionContext ["mouthType"]) "mouthType" ∧
    0 ≤ availableOf (runEnterExit ([true, true, false, false].take 2)
        (mkOptionContext ["mouthType"]) "mouthType") "mouthType" := by
  have hpre : ∀ n : ℕ,
      ((([true, true, false, false] : List Bool).take n).count false : ℤ) ≤
        (([true, true, false, false] : List Bool).take n).count true := by
    intro n
    rcases n with _ | _ | _ | _ | m
    · decide
    · decide
    · decide
    · decide
    · rw [List.take_of_length_le (by simp)]
      decide
  exact ⟨(reference_count_invariant _ _ _ (by decide) hpre).1 (by decide),
    (reference_count_invariant _ _ _ (by decide) hpre).2 2⟩

/-- A keep-the-last-match fold equals find? over the reversed list, with the
accumulator as fallback. -/
theorem foldl_keepLast {α : Type} (q : α → Prop) [DecidablePred q] (a : Option α) (l : List α) :
    l.foldl (fun acc c => if q c then some c else acc) a =
      (l.reverse.find? (fun c => decide (q c))).or a := by
  induction l generalizing a with
  | nil => simp
  | cons c t ih =>
      simp only [List.foldl_cons, List.reverse_cons]
      rw [ih, List.find?_append, Option.or_assoc]
      by_cases h : q c <;> simp [h, List.find?]

/-- When the projected tags are duplicate-free, searching the reversed list
finds the same candidate as searching the list itself. -/
theorem find?_reverse_of_nodup {α : Type} (f : α → String) (v : String) (l : List α)
    (h : (l.map f).Nodup) :
    l.reverse.find? (fun c => f c = v) = l.find? (fun c => f c = v) := by
  induction l with
  | nil => rfl
  | cons c t ih =>
      rw [List.map_cons, List.nodup_cons] at h
      simp only [List.reverse_cons]
      rw [List.find?_append]
      by_cases hc : f c = v
      · have hnone : t.reverse.find? (fun c2 => f c2 = v) = none := by
          apply List.find?_eq_none.mpr
          intro x hx
          simp only [decide_eq_true_eq]
          intro hxv
          apply h.1
          rw [← hc] at hxv
          exact hxv ▸ List.mem_map_of_mem f (List.mem_reverse.mp hx)
        rw [hnone]
        simp [List.find?, hc]
      · rw [ih h.2]
        simp [List.find?, hc, Option.or_none]

/-- Claim C3 counterexample: with two candidates sharing the tag of the
current value, the render scan returns the second (last) one, not the first
as the claim states. -/
theorem selector_first_match_counterexample :
    selectorResolve (some "A") [⟨"A", 0⟩, ⟨"A", 1⟩] = some ⟨"A", 1⟩ ∧
    specSelectorResolveFirst (some "A") [⟨"A", 0⟩, ⟨"A", 1⟩] = some ⟨"A", 0⟩ ∧
    selectorResolve (some "A") [⟨"A", 0⟩, ⟨"A", 1⟩] ≠
      specSelectorResolveFirst (some "A") [⟨"A", 0⟩, ⟨"A", 1⟩] := by
  decide

/-- Claim C3 as amended: the render scan returns the last candidate whose
tag equals the current value (equivalently the first when the candidate tags
are duplicate-free, the normal situation); when no candidate matches it
renders nothing — in particular an explicitly set value outside the
registered candidate set resolves through getValue and renders nothing
rather than falling back to the default. -/
theorem selector_resolution_amended :
    (∀ (v : String) (cs : List Candidate), v ≠ "" →
        selectorResolve (some v) cs =
          cs.reverse.find? (fun c => c.optionValue = v)) ∧
    (∀ (v : String) (cs : List Candidate), v ≠ "" →
        (cs.map (fun c => c.optionValue)).Nodup →
        selectorResolve (some v) cs = cs.find? (fun c => c.optionValue = v)) ∧
    (∀ (v : String) (cs : List Candidate),
        (∀ c ∈ cs, c.optionValue ≠ v) →
        selectorResolve (some v) cs = none) ∧
    (getValue (setValue (registerCandidates (setDefaultValue (mkOptionContext ["mouthType"])
          "mouthType" "Default") "mouthType" ["Default", "Smile"]) "mouthType" "Unknown")
        "mouthType" = some "Unknown" ∧
      selectorResolve (some "Unknown") [⟨"Default", 0⟩, ⟨"Smile", 1⟩] = none) := by
  have hlast : ∀ (v : String) (cs : List Candidate), v ≠ "" →
      selectorResolve (some v) cs = cs.reverse.find? (fun c => c.optionValue = v) := by
    intro v cs hv
    unfold selectorResolve
    dsimp only
    rw [if_neg hv, foldl_keepLast, Option.or_none]
  refine ⟨hlast, ?_, ?_, by decide⟩
  · intro v cs hv hnd
    rw [hlast v cs hv]
    exact find?_reverse_of_nodup (fun c => c.optionValue) v cs hnd
  · intro v cs hmiss
    unfold selectorResolve
    dsimp only
    by_cases hv : v = ""
    · rw [if_pos hv]
    · rw [if_neg hv, foldl_keepLast, Option.or_none]
      apply List.find?_eq_none.mpr
      intro x hx
      simp only [decide_eq_true_eq]
      exact hmiss x (List.mem_reverse.mp hx)

/-- Witness for claim C3 at a concrete candidate list with distinct tags. -/
theorem selector_resolution_amended_witness :
    selectorResolve (some "Smile") [⟨"Default", 0⟩, ⟨"Smile", 1⟩] =
      [(⟨"Default", 0⟩ : Candidate), ⟨"Smile", 1⟩].find?
        (fun c => c.optionValue = "Smile") :=
  selector_resolution_amended.2.1 "Smile" [⟨"Default", 0⟩, ⟨"Smile", 1⟩]
    (by decide) (by decide)

/-- A timer callback firing against a session with all four timer slots
empty does nothing at all. -/
theorem stepEv_fire_of_noTimers (p : AvatarProps) (s : Session) (e : Ev)
    (hf : e.isFire = true) (ht : s.noTimers = true) : stepEv p s e = s := by
  have h4 : ((s.animTimer = none ∧ s.hoverTimer = none) ∧ s.restoreTimer = none) ∧
      s.restoreSeqTimer = none := by
    simpa [Session.noTimers, Bool.and_eq_true, Option.isNone_iff_eq_none] using ht
  obtain ⟨⟨⟨h1, h2⟩, h3⟩, h4⟩ := h4
  cases e with
  | fireAnim f v d =>
      simp only [stepEv]
      unfold fireAnimTimer
      rw [h1]
  | fireHover =>
      simp only [stepEv]
      unfold fireHoverTimer
      rw [h2]
  | fireRestore d =>
      simp only [stepEv]
      unfold fireRestoreTimer
      rw [h3]
  | fireRestoreSeq d =>
      simp only [stepEv]
      unfold fireRestoreSeqTimer
      rw [h4]
  | mouseEnter => simp [Ev.isFire] at hf
  | mouseLeave d => simp [Ev.isFire] at hf
  | effects m e2 b d => simp [Ev.isFire] at hf

/-- Claim C7: the unmount cleanup cancels all four timer categories
unconditionally, whatever was active; afterwards any sequence of timer
deadlines elapsing leaves the session exactly as the cleanup left it, so
zero further expression mutations occur. -/
theorem unmount_cancels_all_timers :
    ∀ (p : AvatarProps) (s : Session) (evs : List Ev),
      (∀ e ∈ evs, e.isFire = true) →
      (unmountCleanup s).noTimers = true ∧
      (unmountCleanup s).log = s.log ∧
      runEvents p evs (unmountCleanup s) = unmountCleanup s := by
  intro p s evs hall
  refine ⟨rfl, rfl, ?_⟩
  have key : ∀ (l : List Ev) (s2 : Session), s2.noTimers = true →
      (∀ e ∈ l, e.isFire = true) → runEvents p l s2 = s2 := by
    intro l
    induction l with
    | nil => intro s2 _ _; rfl
    | cons e t ih =>
        intro s2 h2 hall2
        have hstep := stepEv_fire_of_noTimers p s2 e (hall2 e (by simp)) h2
        show runEvents p t (stepEv p s2 e) = s2
        rw [hstep]
        exact ih s2 h2 (fun e2 hm => hall2 e2 (by simp [hm]))
  exact key evs (unmountCleanup s) rfl hall

/-- Witness for claim C7 at a session with all four timers armed and every
timer category firing after unmount. -/
theorem unmount_cancels_all_timers_witness :
    runEvents {} [Ev.fireAnim 0 0 1500, Ev.fireHover, Ev.fireRestore 1500, Ev.fireRestoreSeq 1500]
      (unmountCleanup
        { animTimer := some 1500, hoverTimer := some 2, restoreTimer := some 600
          restoreSeqTimer := some (RestoreCont.final true) }) =
      unmountCleanup
        { animTimer := some 1500, hoverTimer := some 2, restoreTimer := some 600
          restoreSeqTimer := some (RestoreCont.final true) } :=
  (unmount_cancels_all_timers {} _ _ (by decide)).2.2

/-- Claim C1 evidence: in the re-entry scenario the second mouse enter
leaves the restore step timer pending (only the restore pause slot is
cleared by handleMouseEnter), and when its 800 ms deadline then elapses
while the pointer is over the avatar, the abandoned restoration mutates the
eyes cell. -/
theorem hover_reentry_restore_leak :
    (runEvents reentryProps reentryPrefix initSession).isHovered = true ∧
    (runEvents reentryProps reentryPrefix initSession).restoreSeqTimer =
      some (.step [(Cell.mouth, "Concerned"), (Cell.eyes, "Close"), (Cell.eyebrow, "Angry")]
        1 true) ∧
    (runEvents reentryProps reentryFull initSession).log =
      (runEvents reentryProps reentryPrefix initSession).log ++
        [⟨Site.restoreStep, Cell.eyes, some "Close"⟩] ∧
    (runEvents reentryProps reentryFull initSession).isHovered = true := by
  decide

/-- The original props restore completion preserves idle freedom: it never
touches the idle timer, empties the restore continuation, and logs only
restoreClear writes. -/
theorem idleFree_restoreDoneProps (s : Session) (h : idleFree s = true) :
    idleFree (restoreDoneProps s) = true := by
  simp_all [restoreDoneProps, setMouth, setEyes, setEyebrow, idleFree, contOk,
    logIdleFree, List.all_append]

/-- restoreNext in the original props branch preserves idle freedom: it logs
only restoreStep writes and re-arms the continuation slot with the original
props branch flag. -/
theorem idleFree_restoreNext_false (p : AvatarProps) (d : ℚ) (targets : List (Cell × String))
    (idx : Nat) (s : Session) (h : idleFree s = true) :
    idleFree (restoreNext p d targets idx false s) = true := by
  unfold restoreNext
  by_cases hlen : targets.length ≤ idx
  · rw [if_pos hlen]
    simp only [Bool.false_eq_true, if_false]
    exact idleFree_restoreDoneProps s h
  · rw [if_neg hlen]
    dsimp only
    rcases hget : targets.getD idx (Cell.mouth, "") with ⟨c, v⟩
    split_ifs with h2 <;>
      cases c <;>
      simp_all [setCell, setMouth, setEyes, setEyebrow, idleFree, contOk,
        logIdleFree, List.all_append]

/-- The original prop snapshot only touches the originalSaved field. -/
theorem enterSaveOriginal_parts (p : AvatarProps) (s : Session) :
    (enterSaveOriginal p s).animTimer = s.animTimer ∧
    (enterSaveOriginal p s).restoreSeqTimer = s.restoreSeqTimer ∧
    (enterSaveOriginal p s).log = s.log := by
  unfold enterSaveOriginal
  refine ⟨?_, ?_, ?_⟩ <;> split_ifs <;> rfl

/-- The cell seeding step never touches the timer slots and appends only
enterSeed writes to the log. -/
theorem enterSeedCells_parts (p : AvatarProps) (s : Session) :
    (enterSeedCells p s).animTimer = s.animTimer ∧
    (enterSeedCells p s).restoreSeqTimer = s.restoreSeqTimer ∧
    (logIdleFree s.log = true → logIdleFree (enterSeedCells p s).log = true) := by
  unfold enterSeedCells
  refine ⟨?_, ?_, ?_⟩ <;> (try intro hl) <;> split_ifs <;>
    simp_all [setMouth, setEyes, setEyebrow, logIdleFree, List.all_append]

/-- With idle animation disabled, the hover saving step never touches the
timer slots and appends only enterSeed writes. -/
theorem enterHoverSave_parts (p : AvatarProps) (hp : isIdleAnimating p = false) (s : Session) :
    (enterHoverSave p s).animTimer = s.animTimer ∧
    (enterHoverSave p s).restoreSeqTimer = s.restoreSeqTimer ∧
    (logIdleFree s.log = true → logIdleFree (enterHoverSave p s).log = true) := by
  unfold enterHoverSave
  simp only [hp, Bool.false_eq_true, if_false]
  refine ⟨?_, ?_, ?_⟩
  · rw [(enterSeedCells_parts p _).1]
  · rw [(enterSeedCells_parts p _).2.1]
  · intro hl
    exact (enterSeedCells_parts p _).2.2 hl

/-- Starting the hover interval only arms the hover slot. -/
theorem startHoverSequence_parts (p : AvatarProps) (s : Session) :
    (startHoverSequence p s).animTimer = s.animTimer ∧
    (startHoverSequence p s).restoreSeqTimer = s.restoreSeqTimer ∧
    (startHoverSequence p s).log = s.log := by
  unfold startHoverSequence
  refine ⟨?_, ?_, ?_⟩ <;> split_ifs <;> rfl

/-- With idle animation disabled, handleMouseEnter never touches the idle
timer slot. -/
theorem handleMouseEnter_animTimer (p : AvatarProps) (hp : isIdleAnimating p = false)
    (s : Session) : (handleMouseEnter p s).animTimer = s.animTimer := by
  unfold handleMouseEnter
  split_ifs with h1 h2 h3
  · rfl
  · rw [(startHoverSequence_parts p _).1, (enterHoverSave_parts p hp _).1,
      (enterSaveOriginal_parts p _).1]
  · simp [hp] at h3
  · rw [(enterSaveOriginal_parts p _).1]

/-- With idle animation disabled, handleMouseEnter never touches the restore
sequence slot. -/
theorem handleMouseEnter_restoreSeqTimer (p : AvatarProps) (hp : isIdleAnimating p = false)
    (s : Session) : (handleMouseEnter p s).restoreSeqTimer = s.restoreSeqTimer := by
  unfold handleMouseEnter
  split_ifs with h1 h2 h3
  · rfl
  · rw [(startHoverSequence_parts p _).2.1, (enterHoverSave_parts p hp _).2.1,
      (enterSaveOriginal_parts p _).2.1]
  · simp [hp] at h3
  · rw [(enterSaveOriginal_parts p _).2.1]

/-- With idle animation disabled, handleMouseEnter appends only enterSeed
writes to the log. -/
theorem handleMouseEnter_log (p : AvatarProps) (hp : isIdleAnimating p = false) (s : Session)
    (hl : logIdleFree s.log = true) : logIdleFree (handleMouseEnter p s).log = true := by
  unfold handleMouseEnter
  split_ifs with h1 h2 h3
  · exact hl
  · rw [(startHoverSequence_parts p _).2.2]
    apply (enterHoverSave_parts p hp _).2.2
    rw [(enterSaveOriginal_parts p _).2.2]
    exact hl
  · simp [hp] at h3
  · rw [(enterSaveOriginal_parts p _).2.2]
    exact hl

/-- With idle animation disabled, handleMouseLeave never touches the idle
timer slot. -/
theorem handleMouseLeave_animTimer (p : AvatarProps) (hp : isIdleAnimating p = false)
    (d : ℚ) (s : Session) : (handleMouseLeave p d s).animTimer = s.animTimer := by
  unfold handleMouseLeave
  simp only [hp, Bool.false_and]
  split_ifs <;> first | rfl | simp_all

/-- With idle animation disabled, handleMouseLeave never touches the restore
sequence slot. -/
theorem handleMouseLeave_restoreSeqTimer (p : AvatarProps) (hp : isIdleAnimating p = false)
    (d : ℚ) (s : Session) : (handleMouseLeave p d s).restoreSeqTimer = s.restoreSeqTimer := by
  unfold handleMouseLeave
  simp only [hp, Bool.false_and]
  split_ifs <;> first | rfl | simp_all

/-- With idle animation disabled, handleMouseLeave appends nothing to the
log. -/
theorem handleMouseLeave_log (p : AvatarProps) (hp : isIdleAnimating p = false)
    (d : ℚ) (s : Session) : (handleMouseLeave p d s).log = s.log := by
  unfold handleMouseLeave
  simp only [hp, Bool.false_and]
  split_ifs <;> first | rfl | simp_all

/-- With idle animation disabled, an effect pass only syncs the ref mirror
and clears the scheduling flag. -/
theorem effectPass_components (p : AvatarProps) (hp : isIdleAnimating p = false)
    (m e b : Nat) (d : ℚ) (s : Session) :
    (effectPass p m e b d s).animTimer = s.animTimer ∧
    (effectPass p m e b d s).restoreSeqTimer = s.restoreSeqTimer ∧
    (effectPass p m e b d s).log = s.log := by
  unfold effectPass
  simp only [hp]
  exact ⟨rfl, rfl, rfl⟩

/-- Building idle freedom from its three components. -/
theorem idleFree_of_parts (s : Session) (h1 : s.animTimer.isNone = true)
    (h2 : contOk s.restoreSeqTimer = true) (h3 : logIdleFree s.log = true) :
    idleFree s = true := by
  simp [idleFree, h1, h2, h3]

/-- One event preserves idle freedom whenever the props disable idle
animation. -/
theorem stepEv_idleFree (p : AvatarProps) (hp : isIdleAnimating p = false)
    (s : Session) (e : Ev) (h : idleFree s = true) : idleFree (stepEv p s e) = true := by
  have hsplit : ((s.animTimer.isNone = true ∧ contOk s.restoreSeqTimer = true) ∧
      logIdleFree s.log = true) := by
    simpa [idleFree, Bool.and_eq_true] using h
  obtain ⟨⟨ha, hc⟩, hl⟩ := hsplit
  cases e with
  | mouseEnter =>
      simp only [stepEv]
      apply idleFree_of_parts
      · rw [handleMouseEnter_animTimer p hp s]
        exact ha
      · rw [handleMouseEnter_restoreSeqTimer p hp s]
        exact hc
      · exact handleMouseEnter_log p hp s hl
  | mouseLeave d =>
      simp only [stepEv]
      apply idleFree_of_parts
      · rw [handleMouseLeave_animTimer p hp d s]
        exact ha
      · rw [handleMouseLeave_restoreSeqTimer p hp d s]
        exact hc
      · rw [handleMouseLeave_log p hp d s]
        exact hl
  | fireAnim f v d =>
      simp only [stepEv]
      unfold fireAnimTimer
      rw [Option.isNone_iff_eq_none.mp ha]
      exact h
  | fireHover =>
      simp only [stepEv]
      unfold fireHoverTimer
      cases hh : s.hoverTimer with
      | none => exact h
      | some i =>
          simp_all [setMouth, setEyes, setEyebrow, idleFree, contOk, logIdleFree,
            List.all_append]
  | fireRestore d =>
      simp only [stepEv]
      unfold fireRestoreTimer
      cases hr : s.restoreTimer with
      | none => exact h
      | some q =>
          simp only [hp, Bool.false_eq_true, if_false]
          cases hsv : s.savedState with
          | some t =>
              apply idleFree_restoreNext_false
              simp_all [idleFree, contOk, logIdleFree]
          | none =>
              simp_all [setMouth, setEyes, setEyebrow, idleFree, contOk, logIdleFree,
                List.all_append]
  | fireRestoreSeq d =>
      simp only [stepEv]
      unfold fireRestoreSeqTimer
      cases hr : s.restoreSeqTimer with
      | none => exact h
      | some cont =>
          cases cont with
          | step targets idx br =>
              have hbr : br = false := by
                rw [hr] at hc
                simpa [contOk] using hc
              subst hbr
              apply idleFree_restoreNext_false
              simp_all [idleFree, contOk, logIdleFree]
          | final br =>
              have hbr : br = false := by
                rw [hr] at hc
                simpa [contOk] using hc
              subst hbr
              simp only [Bool.false_eq_true, if_false]
              apply idleFree_restoreDoneProps
              simp_all [idleFree, contOk, logIdleFree]
  | effects m e2 b d =>
      simp only [stepEv]
      obtain ⟨hea, her, hel⟩ := effectPass_components p hp m e2 b d s
      apply idleFree_of_parts
      · rw [hea]
        exact ha
      · rw [her]
        exact hc
      · rw [hel]
        exact hl

/-- Claim C6: with any non-empty subset of the three expression props
supplied explicitly, and whatever idle interval is configured, idle
animation has no effect along any event sequence: the idle timer slot is
never armed and no expression cell write of the idle animation (seeding or
random change) is ever logged. -/
theorem idle_explicit_prop_exclusivity :
    ∀ (p : AvatarProps),
      p.propMouthType.isSome = true ∨ p.propEyeType.isSome = true ∨
        p.propEyebrowType.isSome = true →
      ∀ evs : List Ev,
        (runEvents p evs initSession).animTimer = none ∧
        logIdleFree (runEvents p evs initSession).log = true := by
  intro p hp evs
  have hcan : canAnimateExpressions p = false := by
    unfold canAnimateExpressions
    rcases hp with hh | hh | hh <;>
      obtain ⟨x, hx⟩ := Option.isSome_iff_exists.mp hh <;>
      simp [hx]
  have hidle : isIdleAnimating p = false := by
    unfold isIdleAnimating
    rw [hcan]
    simp
  have key : ∀ (l : List Ev) (s2 : Session), idleFree s2 = true →
      idleFree (runEvents p l s2) = true := by
    intro l
    induction l with
    | nil => intro s2 h2; exact h2
    | cons e t ih =>
        intro s2 h2
        exact ih _ (stepEv_idleFree p hidle s2 e h2)
  have hfin := key evs initSession rfl
  have hsplit : (((runEvents p evs initSession).animTimer.isNone = true ∧
      contOk (runEvents p evs initSession).restoreSeqTimer = true) ∧
      logIdleFree (runEvents p evs initSession).log = true) := by
    simpa [idleFree, Bool.and_eq_true] using hfin
  exact ⟨Option.isNone_iff_eq_none.mp hsplit.1.1, hsplit.2⟩

/-- Witness for claim C6 at a concrete explicit mouth prop, configured idle
interval and event trace. -/
theorem idle_explicit_prop_exclusivity_witness :
    (runEvents { rawAnimationSpeed := some 2000, propMouthType := some "Serious" }
        [Ev.effects 0 0 0 1500, Ev.mouseEnter, Ev.mouseLeave 1500, Ev.fireRestore 1500]
        initSession).animTimer = none ∧
    logIdleFree (runEvents { rawAnimationSpeed := some 2000, propMouthType := some "Serious" }
        [Ev.effects 0 0 0 1500, Ev.mouseEnter, Ev.mouseLeave 1500, Ev.fireRestore 1500]
        initSession).log = true :=
  idle_explicit_prop_exclusivity
    { rawAnimationSpeed := some 2000, propMouthType := some "Serious" }
    (Or.inl (by decide))
    [Ev.effects 0 0 0 1500, Ev.mouseEnter, Ev.mouseLeave 1500, Ev.fireRestore 1500]

/-- Witness for claim C2 at a concrete truthy scale. -/
theorem clamping_boundaries_amended_witness :
    (1.05 ≤ (hoverScale (some (2 : ℚ))).getD 0 ∧ (hoverScale (some (2 : ℚ))).getD 0 ≤ 1.32) ∧
    (hasHoverScale (some (1.2 : ℚ)) = true ↔
      ∃ s, hoverScale (some (1.2 : ℚ)) = some s ∧ 1 < s) :=
  ⟨clamping_boundaries_amended.2.2.1 2 (by norm_num),
   clamping_boundaries_amended.2.2.2.1 (some 1.2)⟩

end Avataaars
